import Mathlib

set_option maxRecDepth 10000
set_option synthInstance.maxSize 2000
set_option maxHeartbeats 2000000

/-!
Verification of the MOS architecture register-file codec.

The development embeds the register-file data model (`MosRegs`), the wire
codec (`gdb_serialize` / `gdb_deserialize`), and the register-identity
lookup (`MosRegId.from_raw_id`) as executable Lean definitions, and proves
the specified round-trip, framing and table properties about them.

Modelling conventions:
* machine bytes / words are `Nat` with explicit `% 256` / `% 65536` where
  the machine operation can wrap;
* the 32-byte auxiliary bank (`rc : [u8; 32]` in the original) is a
  `List Nat` whose length-32 and byte-range invariants are collected in
  `MosRegs.Wf`;
* slice indexing (`bytes[i]`) panics when out of bounds; a panic is
  modelled by the `DeserResult.panic` constructor carrying the register
  file as mutated so far, since the mutations made before the panic are
  real and observable to a caller that catches the unwind.
-/

/-- The register file: 32 auxiliary bytes, a 16-bit program counter, the
four 8-bit scalar registers A, X, Y, S and the packed 8-bit flag byte. -/
structure MosRegs where
  rc : List Nat
  pc : Nat
  a : Nat
  x : Nat
  y : Nat
  s : Nat
  flags : Nat
deriving Repr, DecidableEq

/-- Well-formedness: the ranges imposed by the machine types
(`rc : [u8; 32]`, `pc : u16`, `a x y s flags : u8`). -/
def MosRegs.Wf (f : MosRegs) : Prop :=
  f.rc.length = 32 ∧ (∀ v ∈ f.rc, v < 256) ∧ f.pc < 65536 ∧
    f.a < 256 ∧ f.x < 256 ∧ f.y < 256 ∧ f.s < 256 ∧ f.flags < 256

instance (f : MosRegs) : Decidable f.Wf := by
  unfold MosRegs.Wf; infer_instance

/-- The register file produced by `Default` (all fields zero). -/
def default_file : MosRegs :=
  { rc := List.replicate 32 0, pc := 0, a := 0, x := 0, y := 0, s := 0, flags := 0 }

/-- `gdb_serialize`: PC little-endian (`to_le_bytes` of a `u16` is
`[pc % 256, pc / 256 % 256]`), then A, X, Y, S, then the four isolated
flag bits (`flags & 1`, `(flags >> 1) & 1`, `(flags >> 6) & 1`,
`(flags >> 7) & 1`), then the 32 `rc` bytes in index order. -/
def MosRegs.gdb_serialize (f : MosRegs) : List Nat :=
  [f.pc % 256, f.pc / 256 % 256, f.a, f.x, f.y, f.s,
   f.flags &&& 1, (f.flags >>> 1) &&& 1, (f.flags >>> 6) &&& 1, (f.flags >>> 7) &&& 1]
  ++ f.rc

/-- Outcome of `gdb_deserialize`.  The original returns
`Result<(), ()>` on a `&mut self`; `ok`/`err` are the two `Result`
variants (carrying the updated file), and `panic` is an out-of-bounds
slice index, carrying the file as mutated up to the point of the panic. -/
inductive DeserResult where
  | panic : MosRegs → DeserResult
  | ok : MosRegs → DeserResult
  | err : MosRegs → DeserResult
deriving Repr, DecidableEq

/-- The flag-byte recombination of `gdb_deserialize` line
`bytes[6] | bytes[7] * 2 | bytes[8] * 64 + bytes[9] * 128`, with Rust
precedence (`*` over `+` over `|`) and `u8` wrap-around on `*` and `+`. -/
def orVal (b6 b7 b8 b9 : Nat) : Nat :=
  b6 ||| b7 * 2 % 256 ||| (b8 * 64 % 256 + b9 * 128 % 256) % 256

/-- The `rc` copy loop
`self.rc.iter_mut().enumerate().for_each(|(i, v)| *v = bytes[10 + i])`,
reading `bytes[i]`, `bytes[i+1]`, … into successive cells.  `.error`
models the panic on the first out-of-range read and carries the bank as
mutated so far (cells before the panic updated, the rest untouched). -/
def copyAux (bytes : List Nat) : Nat → List Nat → Except (List Nat) (List Nat)
  | _, [] => .ok []
  | i, v :: rest =>
    match bytes[i]? with
    | none => .error (v :: rest)
    | some b =>
      match copyAux bytes (i + 1) rest with
      | .ok rest2 => .ok (b :: rest2)
      | .error rest2 => .error (b :: rest2)

/-- `gdb_deserialize`, statement by statement:
`pc = bytes[0] + bytes[1]*256`; `a`, `x`, `y`, `s` from `bytes[2..=5]`;
`flags &= 0b00111100`; `flags |= bytes[6] | bytes[7]*2 | bytes[8]*64 +
bytes[9]*128`; the 32 `rc` cells from `bytes[10..=41]`; finally `Ok(())`.
Each `bytes[i]` read panics when `i` is out of range, with all mutations
made by the earlier statements retained. -/
def MosRegs.gdb_deserialize (f : MosRegs) (bytes : List Nat) : DeserResult :=
  match bytes[0]? with
  | none => .panic f
  | some b0 =>
  match bytes[1]? with
  | none => .panic f
  | some b1 =>
  let f1 : MosRegs := { f with pc := (b0 + b1 * 256) % 65536 }
  match bytes[2]? with
  | none => .panic f1
  | some b2 =>
  let f2 : MosRegs := { f1 with a := b2 }
  match bytes[3]? with
  | none => .panic f2
  | some b3 =>
  let f3 : MosRegs := { f2 with x := b3 }
  match bytes[4]? with
  | none => .panic f3
  | some b4 =>
  let f4 : MosRegs := { f3 with y := b4 }
  match bytes[5]? with
  | none => .panic f4
  | some b5 =>
  let f5 : MosRegs := { f4 with s := b5 }
  let f6 : MosRegs := { f5 with flags := f5.flags &&& 60 }
  match bytes[6]? with
  | none => .panic f6
  | some b6 =>
  match bytes[7]? with
  | none => .panic f6
  | some b7 =>
  match bytes[8]? with
  | none => .panic f6
  | some b8 =>
  match bytes[9]? with
  | none => .panic f6
  | some b9 =>
  let f7 : MosRegs := { f6 with flags := f6.flags ||| orVal b6 b7 b8 b9 }
  match copyAux bytes 10 f7.rc with
  | .error rc2 => .panic { f7 with rc := rc2 }
  | .ok rc2 => .ok { f7 with rc := rc2 }

/-- The logical register identities (enum `MosRegId`): the 8-bit aux
registers `RC i`, the 16-bit aux pairs `RS k`, the program counter, the
scalar registers and the four individual flag bits C, Z, N, V. -/
inductive MosRegId where
  | RC : Nat → MosRegId
  | RS : Nat → MosRegId
  | PC : MosRegId
  | A : MosRegId
  | X : MosRegId
  | Y : MosRegId
  | S : MosRegId
  | C : MosRegId
  | Z : MosRegId
  | N : MosRegId
  | V : MosRegId
deriving Repr, DecidableEq

/-- Display name of a logical register, as used in the target
description document (`C`/`Z`/`V`/`N` are the carry, zero, overflow and
negative flags respectively; overflow is status bit 6, negative bit 7). -/
def MosRegId.name : MosRegId → String
  | .RC i => "RC" ++ toString i
  | .RS k => "RS" ++ toString k
  | .PC => "PC"
  | .A => "A"
  | .X => "X"
  | .Y => "Y"
  | .S => "S"
  | .C => "C"
  | .Z => "Z"
  | .N => "N"
  | .V => "V"

/-- `MosRegId::from_raw_id`: the protocol-index lookup, returning the
register and its byte width.  Mirrors the `match` arms of the source:
`0..=8` the fixed registers in declaration order C, Z, N, V for the flag
block, `9..=40` the 8-bit aux bank, `41..=56` the 16-bit pairs, anything
else `None`. -/
def MosRegId.from_raw_id (id : Nat) : Option (MosRegId × Nat) :=
  match id with
  | 0 => some (.PC, 2)
  | 1 => some (.A, 1)
  | 2 => some (.X, 1)
  | 3 => some (.Y, 1)
  | 4 => some (.S, 1)
  | 5 => some (.C, 1)
  | 6 => some (.Z, 1)
  | 7 => some (.N, 1)
  | 8 => some (.V, 1)
  | id =>
    if 9 ≤ id ∧ id ≤ 40 then some (.RC (id - 9), 1)
    else if 41 ≤ id ∧ id ≤ 56 then some (.RS (id - 41), 2)
    else none

/-- The `regnum → name` column of the target-description XML document in
`target_description_xml` (`<reg name=... regnum=... />` entries): regnum
5-8 are named C, Z, V, N in that order, regnum 9+i is `RCi`, regnum 41+k
is `RSk`. -/
def xmlRegnumName (n : Nat) : Option String :=
  match n with
  | 0 => some "PC"
  | 1 => some "A"
  | 2 => some "X"
  | 3 => some "Y"
  | 4 => some "S"
  | 5 => some "C"
  | 6 => some "Z"
  | 7 => some "V"
  | 8 => some "N"
  | n =>
    if 9 ≤ n ∧ n ≤ 40 then some ("RC" ++ toString (n - 9))
    else if 41 ≤ n ∧ n ≤ 56 then some ("RS" ++ toString (n - 41))
    else none

/-- `bitsize`-derived byte width of each register in the XML document
(16-bit registers are 2 bytes wide, all others 1). -/
def xmlRegnumWidth (n : Nat) : Option Nat :=
  match n with
  | 0 => some 2
  | n =>
    if n ≤ 40 then some 1
    else if 41 ≤ n ∧ n ≤ 56 then some 2
    else none

/-- Modelled from the spec: `encode_full_registers` as §4.1 words it —
PC as 2 bytes little-endian, A, X, Y, S verbatim, then the four flag
bits carry (bit 0), zero (bit 1), overflow (bit 6), negative (bit 7)
each isolated into its own byte, then the 32 aux bytes in index order. -/
def specEncode (f : MosRegs) : List Nat :=
  [f.pc % 256, f.pc / 256, f.a, f.x, f.y, f.s,
   if f.flags.testBit 0 then 1 else 0,
   if f.flags.testBit 1 then 1 else 0,
   if f.flags.testBit 6 then 1 else 0,
   if f.flags.testBit 7 then 1 else 0]
  ++ f.rc

/-- The concrete register file of the spec's serialization scenario:
PC=0x1234, A=1, X=2, Y=3, S=4, flags=0b10000011, aux all zero. -/
def exampleFile : MosRegs :=
  { rc := List.replicate 32 0, pc := 0x1234, a := 1, x := 2, y := 3, s := 4,
    flags := 0b10000011 }

/-- A 42-byte wire image whose carry byte (position 6) is 2 instead of a
single bit: all zero except `bytes[6] = 2`. -/
def bWithCarry2 : List Nat := List.replicate 6 0 ++ 2 :: List.replicate 35 0

/-- A 42-byte wire image whose carry byte (position 6) is 4: all zero
except `bytes[6] = 4`.  Bit 2 of that byte lands in the reserved region
of the flag byte. -/
def bWithCarry4 : List Nat := List.replicate 6 0 ++ 4 :: List.replicate 35 0

/-- A register file with all reserved flag bits (and everything else in
the flag byte) set: flags = 0xFF. -/
def fullFlagsFile : MosRegs :=
  { rc := List.replicate 32 0, pc := 0xBEEF, a := 5, x := 6, y := 7, s := 8,
    flags := 255 }

/-- The file obtained by decoding `bWithCarry2` into the default file:
everything zero except `flags = 2`. -/
def fileFlags2 : MosRegs :=
  { rc := List.replicate 32 0, pc := 0, a := 0, x := 0, y := 0, s := 0, flags := 2 }

/-- The file obtained by decoding `bWithCarry4` into the default file:
everything zero except `flags = 4` — bit 2, a reserved bit, is set. -/
def fileFlags4 : MosRegs :=
  { rc := List.replicate 32 0, pc := 0, a := 0, x := 0, y := 0, s := 0, flags := 4 }

/-- The state `gdb_deserialize` leaves behind when fed the 6-byte input
`[9, 9, 9, 9, 9, 9]` starting from `exampleFile`: pc, a, x, y, s already
overwritten and the flag byte already masked, before the panic at
`bytes[6]`. -/
def examplePanicFile : MosRegs :=
  { rc := List.replicate 32 0, pc := 2313, a := 9, x := 9, y := 9, s := 9, flags := 0 }

theorem copyAux_ok (rc : List Nat) (bytes : List Nat) (i : Nat)
    (h : i + rc.length ≤ bytes.length) :
    copyAux bytes i rc = .ok ((bytes.drop i).take rc.length) := by
  induction rc generalizing i with
  | nil => simp [copyAux]
  | cons v rest ih =>
    have hi : i < bytes.length := by simp at h; omega
    have hrest : (i + 1) + rest.length ≤ bytes.length := by simp at h; omega
    rw [copyAux, List.getElem?_eq_getElem hi, ih (i + 1) hrest,
      List.length_cons, List.drop_eq_getElem_cons hi, List.take_succ_cons]

/-- Main characterization: on any input of length at least 42 (and a
well-sized aux bank), `gdb_deserialize` reaches the final `Ok(())` and
the updated file is given field by field by the first 42 input bytes. -/
theorem gdb_deserialize_of_le_length (f : MosRegs) (b : List Nat)
    (hrc : f.rc.length = 32) (hb : 42 ≤ b.length) :
    f.gdb_deserialize b = .ok
      { rc := (b.drop 10).take 32,
        pc := (b.getD 0 0 + b.getD 1 0 * 256) % 65536,
        a := b.getD 2 0, x := b.getD 3 0, y := b.getD 4 0, s := b.getD 5 0,
        flags := f.flags &&& 60 |||
          orVal (b.getD 6 0) (b.getD 7 0) (b.getD 8 0) (b.getD 9 0) } := by
  have hsome : ∀ i : Nat, i < 42 → b[i]? = some (b.getD i 0) := by
    intro i hi
    rw [List.getElem?_eq_getElem (by omega), List.getD_eq_getElem?_getD,
      List.getElem?_eq_getElem (by omega)]
    rfl
  unfold MosRegs.gdb_deserialize
  rw [hsome 0 (by omega), hsome 1 (by omega), hsome 2 (by omega),
    hsome 3 (by omega), hsome 4 (by omega), hsome 5 (by omega),
    hsome 6 (by omega), hsome 7 (by omega), hsome 8 (by omega),
    hsome 9 (by omega)]
  have hcopy : copyAux b 10 f.rc = .ok ((b.drop 10).take 32) := by
    rw [copyAux_ok f.rc b 10 (by omega), hrc]
  simp only [hcopy]

/-- Exhaustive check (all 256 flag bytes): re-combining the four
serialized flag bits over the masked old value restores the flag byte. -/
theorem flagsRT : ∀ fl < 256,
    fl &&& 60 ||| orVal (fl &&& 1) (fl >>> 1 &&& 1) (fl >>> 6 &&& 1) (fl >>> 7 &&& 1) = fl := by
  decide

/-- Exhaustive check: for single-bit flag bytes the recombination stays
below 256, each defined bit is recovered exactly, the reserved bits stay
clear, and the add-based combination agrees with the pure-OR form. -/
theorem orVal_bits : ∀ c < 2, ∀ z < 2, ∀ v < 2, ∀ n < 2,
    orVal c z v n < 256 ∧ orVal c z v n &&& 1 = c ∧ orVal c z v n >>> 1 &&& 1 = z ∧
    orVal c z v n >>> 6 &&& 1 = v ∧ orVal c z v n >>> 7 &&& 1 = n ∧
    orVal c z v n &&& 60 = 0 ∧ orVal c z v n = c ||| z * 2 ||| v * 64 ||| n * 128 := by
  decide

/-- Exhaustive check: the decoded flag byte keeps the masked old value
on the reserved bits and takes each defined bit from the wire bits. -/
theorem flagCombine_bits : ∀ old < 256, ∀ c < 2, ∀ z < 2, ∀ v < 2, ∀ n < 2,
    (old &&& 60 ||| orVal c z v n) &&& 60 = old &&& 60 ∧
    (old &&& 60 ||| orVal c z v n) &&& 1 = c ∧
    (old &&& 60 ||| orVal c z v n) >>> 1 &&& 1 = z ∧
    (old &&& 60 ||| orVal c z v n) >>> 6 &&& 1 = v ∧
    (old &&& 60 ||| orVal c z v n) >>> 7 &&& 1 = n ∧
    (old &&& 60 ||| orVal c z v n) < 256 := by
  decide

theorem gdb_serialize_length (f : MosRegs) (hrc : f.rc.length = 32) :
    f.gdb_serialize.length = 42 := by
  simp [MosRegs.gdb_serialize, hrc]

/-- Deserializing a file's own serialization restores the file exactly:
the defined flag bits are re-derived to their old values and the
reserved bits are preserved, so even they survive. -/
theorem deserialize_serialize (f : MosRegs) (h : f.Wf) :
    f.gdb_deserialize f.gdb_serialize = .ok f := by
  obtain ⟨hrc, -, hpc, -, -, -, -, hfl⟩ := h
  have hlen : f.gdb_serialize.length = 42 := gdb_serialize_length f hrc
  rw [gdb_deserialize_of_le_length f _ hrc (by omega)]
  have h0 : f.gdb_serialize.getD 0 0 = f.pc % 256 := by simp [MosRegs.gdb_serialize]
  have h1 : f.gdb_serialize.getD 1 0 = f.pc / 256 % 256 := by simp [MosRegs.gdb_serialize]
  have h2 : f.gdb_serialize.getD 2 0 = f.a := by simp [MosRegs.gdb_serialize]
  have h3 : f.gdb_serialize.getD 3 0 = f.x := by simp [MosRegs.gdb_serialize]
  have h4 : f.gdb_serialize.getD 4 0 = f.y := by simp [MosRegs.gdb_serialize]
  have h5 : f.gdb_serialize.getD 5 0 = f.s := by simp [MosRegs.gdb_serialize]
  have h6 : f.gdb_serialize.getD 6 0 = f.flags &&& 1 := by simp [MosRegs.gdb_serialize]
  have h7 : f.gdb_serialize.getD 7 0 = f.flags >>> 1 &&& 1 := by simp [MosRegs.gdb_serialize]
  have h8 : f.gdb_serialize.getD 8 0 = f.flags >>> 6 &&& 1 := by simp [MosRegs.gdb_serialize]
  have h9 : f.gdb_serialize.getD 9 0 = f.flags >>> 7 &&& 1 := by simp [MosRegs.gdb_serialize]
  have hdrop : (f.gdb_serialize.drop 10).take 32 = f.rc := by
    rw [MosRegs.gdb_serialize, List.drop_left' (by simp), ← hrc, List.take_length]
  have hpc' : (f.pc % 256 + f.pc / 256 % 256 * 256) % 65536 = f.pc := by omega
  rw [h0, h1, h2, h3, h4, h5, h6, h7, h8, h9, hdrop, flagsRT f.flags hfl, hpc']

theorem shiftRight_and_one_eq_testBit (a k : Nat) :
    a >>> k &&& 1 = if a.testBit k then 1 else 0 := by
  rw [Nat.and_one_is_mod, Nat.testBit_to_div_mod, Nat.shiftRight_eq_div_pow]
  rcases Nat.mod_two_eq_zero_or_one (a / 2 ^ k) with h | h <;> simp [h]

/-- C3: `gdb_serialize` emits exactly 42 bytes in the fixed order the
spec describes (PC little-endian, A, X, Y, S, the four isolated flag
bits carry/zero/overflow/negative, then the 32 aux bytes), and on the
spec's concrete scenario (PC=0x1234, A=1, X=2, Y=3, S=4,
flags=0b10000011, aux zero) the output is
`[0x34, 0x12, 1, 2, 3, 4, 1, 1, 0, 1]` followed by 32 zero bytes. -/
theorem gdb_serialize_layout (f : MosRegs) (h : f.Wf) :
    f.gdb_serialize = specEncode f ∧ f.gdb_serialize.length = 42 ∧
    exampleFile.gdb_serialize =
      [0x34, 0x12, 0x01, 0x02, 0x03, 0x04, 1, 1, 0, 1] ++ List.replicate 32 0 := by
  obtain ⟨hrc, -, hpc, -⟩ := h
  refine ⟨?_, gdb_serialize_length f hrc, by decide⟩
  have hbit0 : f.flags &&& 1 = if f.flags.testBit 0 then 1 else 0 := by
    have := shiftRight_and_one_eq_testBit f.flags 0
    rwa [Nat.shiftRight_zero] at this
  have hdiv : f.pc / 256 % 256 = f.pc / 256 := by omega
  rw [MosRegs.gdb_serialize, specEncode, hbit0, shiftRight_and_one_eq_testBit,
    shiftRight_and_one_eq_testBit, shiftRight_and_one_eq_testBit, hdiv]

theorem gdb_serialize_layout_witness :
    exampleFile.Wf ∧
    (exampleFile.gdb_serialize = specEncode exampleFile ∧
     exampleFile.gdb_serialize.length = 42 ∧
     exampleFile.gdb_serialize =
       [0x34, 0x12, 0x01, 0x02, 0x03, 0x04, 1, 1, 0, 1] ++ List.replicate 32 0) :=
  ⟨by decide, gdb_serialize_layout exampleFile (by decide)⟩

/-- C8: for single-bit flag bytes the reference combination
`c | z*2 | (v*64 + n*128)` stays inside 8 bits — the `u8` sum
`v*64 + n*128` cannot wrap — and agrees with the pure bitwise-OR form
`c | z*2 | v*64 | n*128`, so addition versus OR is unobservable. -/
theorem orVal_add_eq_or (c z v n : Nat) (hc : c < 2) (hz : z < 2) (hv : v < 2) (hn : n < 2) :
    v * 64 + n * 128 < 256 ∧ orVal c z v n < 256 ∧
    orVal c z v n = c ||| z * 2 ||| v * 64 ||| n * 128 := by
  obtain ⟨hlt, -, -, -, -, -, hor⟩ := orVal_bits c hc z hz v hv n hn
  exact ⟨by omega, hlt, hor⟩

theorem orVal_add_eq_or_witness :
    (1 : Nat) < 2 ∧
    (1 * 64 + 1 * 128 < 256 ∧ orVal 1 1 1 1 < 256 ∧
     orVal 1 1 1 1 = 1 ||| 1 * 2 ||| 1 * 64 ||| 1 * 128) :=
  ⟨by decide, orVal_add_eq_or 1 1 1 1 (by decide) (by decide) (by decide) (by decide)⟩

/-- C4: serialize-deserialize-serialize is the identity on wire images —
deserializing a file's own 42-byte serialization succeeds and the
resulting file serializes to the identical byte sequence, including when
the reserved flag bits 2-5 are nonzero. -/
theorem serialize_deserialize_serialize (f : MosRegs) (h : f.Wf) :
    ∃ g, f.gdb_deserialize f.gdb_serialize = .ok g ∧ g.gdb_serialize = f.gdb_serialize :=
  ⟨f, deserialize_serialize f h, rfl⟩

theorem serialize_deserialize_serialize_witness :
    fullFlagsFile.Wf ∧
    ∃ g, fullFlagsFile.gdb_deserialize fullFlagsFile.gdb_serialize = .ok g ∧
      g.gdb_serialize = fullFlagsFile.gdb_serialize :=
  ⟨by decide, serialize_deserialize_serialize fullFlagsFile (by decide)⟩

/-- C5: for a register file whose reserved flag bits 2-5 are zero,
deserializing its own serialization restores the file structurally,
field for field. -/
theorem deserialize_serialize_id (f : MosRegs) (h : f.Wf) (_hres : f.flags &&& 60 = 0) :
    f.gdb_deserialize f.gdb_serialize = .ok f :=
  deserialize_serialize f h

theorem deserialize_serialize_id_witness :
    exampleFile.Wf ∧ exampleFile.flags &&& 60 = 0 ∧
    exampleFile.gdb_deserialize exampleFile.gdb_serialize = .ok exampleFile :=
  ⟨by decide, by decide, deserialize_serialize_id exampleFile (by decide) (by decide)⟩

theorem gdb_deserialize_take42 (f : MosRegs) (b : List Nat) (hrc : f.rc.length = 32)
    (hb : 42 ≤ b.length) :
    f.gdb_deserialize b = f.gdb_deserialize (b.take 42) := by
  have hlen : (b.take 42).length = 42 := by
    simp [List.length_take]; omega
  rw [gdb_deserialize_of_le_length f b hrc hb,
    gdb_deserialize_of_le_length f (b.take 42) hrc (by omega)]
  have hgetD : ∀ i, i < 42 → (b.take 42).getD i 0 = b.getD i 0 := by
    intro i hi
    rw [List.getD_eq_getElem?_getD, List.getD_eq_getElem?_getD, List.getElem?_take_of_lt hi]
  have hdrop : ((b.take 42).drop 10).take 32 = (b.drop 10).take 32 := by
    rw [List.take_drop, List.take_drop, List.take_of_length_le (by simp)]
  rw [hgetD 0 (by omega), hgetD 1 (by omega), hgetD 2 (by omega), hgetD 3 (by omega),
    hgetD 4 (by omega), hgetD 5 (by omega), hgetD 6 (by omega), hgetD 7 (by omega),
    hgetD 8 (by omega), hgetD 9 (by omega), hdrop]

/-- C9: `gdb_deserialize` depends only on the first 42 input bytes — two
inputs of length at least 42 that agree on their first 42 bytes produce
the same outcome and the same final register file. -/
theorem deserialize_first42 (f : MosRegs) (b1 b2 : List Nat) (hrc : f.rc.length = 32)
    (h1 : 42 ≤ b1.length) (h2 : 42 ≤ b2.length) (hagree : b1.take 42 = b2.take 42) :
    f.gdb_deserialize b1 = f.gdb_deserialize b2 := by
  rw [gdb_deserialize_take42 f b1 hrc h1, gdb_deserialize_take42 f b2 hrc h2, hagree]

theorem deserialize_first42_witness :
    default_file.rc.length = 32 ∧
    42 ≤ (List.replicate 42 0 ++ [7]).length ∧
    (List.replicate 42 0 ++ [7]).take 42 = (List.replicate 42 0 ++ [9]).take 42 ∧
    default_file.gdb_deserialize (List.replicate 42 0 ++ [7]) =
      default_file.gdb_deserialize (List.replicate 42 0 ++ [9]) :=
  ⟨by decide, by decide, by decide,
    deserialize_first42 default_file _ _ (by decide) (by decide) (by decide) (by decide)⟩

theorem gdb_deserialize_ne_err (f : MosRegs) (b : List Nat) (g : MosRegs) :
    f.gdb_deserialize b ≠ .err g := by
  intro h
  unfold MosRegs.gdb_deserialize at h
  repeat' first
  | split at h
  | simp only [] at h
  all_goals simp at h

/-- C10: every input of length at least 42 makes `gdb_deserialize`
return `Ok(())`; the `Err` variant of its result is unreachable on every
execution path, so a short input can only manifest outside the result
channel (as an index-out-of-bounds panic). -/
theorem deserialize_always_ok (f : MosRegs) (b : List Nat) (hrc : f.rc.length = 32)
    (hb : 42 ≤ b.length) :
    (∃ g, f.gdb_deserialize b = .ok g) ∧
    ∀ (f' : MosRegs) (b' : List Nat) (g : MosRegs), f'.gdb_deserialize b' ≠ .err g :=
  ⟨⟨_, gdb_deserialize_of_le_length f b hrc hb⟩, fun f' b' g => gdb_deserialize_ne_err f' b' g⟩

theorem deserialize_always_ok_witness :
    default_file.rc.length = 32 ∧ 42 ≤ (List.replicate 42 1).length ∧
    ((∃ g, default_file.gdb_deserialize (List.replicate 42 1) = .ok g) ∧
     ∀ (f' : MosRegs) (b' : List Nat) (g : MosRegs), f'.gdb_deserialize b' ≠ .err g) :=
  ⟨by decide, by decide, deserialize_always_ok default_file (List.replicate 42 1) (by decide) (by decide)⟩

/-- C6 counterexample: a 42-byte input whose carry byte (position 6) is
2 — a valid byte, but not a single bit — decodes successfully, yet
re-encoding does not reproduce the input: position 6 comes back as 0. -/
theorem decode_then_encode_not_id :
    bWithCarry2.length = 42 ∧
    ∃ g, default_file.gdb_deserialize bWithCarry2 = .ok g ∧ g.gdb_serialize ≠ bWithCarry2 :=
  ⟨by decide, fileFlags2, by decide, by decide⟩

/-- C6 (amended): for a 42-byte input of bytes below 256 whose four flag
bytes (positions 6-9) are each 0 or 1, decoding into the default file
and re-encoding reproduces the input byte for byte. -/
theorem decode_then_encode_id (b : List Nat) (hlen : b.length = 42)
    (hbyte : ∀ v ∈ b, v < 256)
    (h6 : b.getD 6 0 < 2) (h7 : b.getD 7 0 < 2) (h8 : b.getD 8 0 < 2) (h9 : b.getD 9 0 < 2) :
    ∃ g, default_file.gdb_deserialize b = .ok g ∧ g.gdb_serialize = b := by
  rcases b with - | ⟨b0, - | ⟨b1, - | ⟨b2, - | ⟨b3, - | ⟨b4, - | ⟨b5, - | ⟨b6, - | ⟨b7, - |
    ⟨b8, - | ⟨b9, rest⟩⟩⟩⟩⟩⟩⟩⟩⟩⟩ <;>
      simp only [List.length_cons, List.length_nil] at hlen <;> try omega
  have hrest : rest.length = 32 := by omega
  have hb0 : b0 < 256 := hbyte b0 (by simp)
  have hb1 : b1 < 256 := hbyte b1 (by simp)
  simp only [List.getD_cons_zero, List.getD_cons_succ] at h6 h7 h8 h9
  have hg := gdb_deserialize_of_le_length default_file
    (b0 :: b1 :: b2 :: b3 :: b4 :: b5 :: b6 :: b7 :: b8 :: b9 :: rest) (by decide)
    (by simp only [List.length_cons]; omega)
  simp only [List.getD_cons_zero, List.getD_cons_succ, List.drop_succ_cons,
    List.drop_zero] at hg
  rw [List.take_of_length_le (by omega)] at hg
  refine ⟨_, hg, ?_⟩
  obtain ⟨-, hc, hz, hv, hn, -⟩ :=
    flagCombine_bits 0 (by omega) b6 h6 b7 h7 b8 h8 b9 h9
  simp only [MosRegs.gdb_serialize, default_file, List.cons_append, List.nil_append,
    List.cons.injEq, true_and, and_true]
  exact ⟨by omega, by omega, hc, hz, hv, hn⟩

theorem decode_then_encode_id_witness :
    (List.replicate 42 1).length = 42 ∧
    (∀ v ∈ List.replicate 42 1, v < 256) ∧
    ∃ g, default_file.gdb_deserialize (List.replicate 42 1) = .ok g ∧
      g.gdb_serialize = List.replicate 42 1 :=
  ⟨by decide, by decide,
    decode_then_encode_id (List.replicate 42 1) (by decide) (by decide)
      (by decide) (by decide) (by decide) (by decide)⟩

/-- C7 counterexample: with `bytes[6] = 4` (an input of length 42), the
whole byte is OR-ed into the flag word, so reserved bit 2 of the target
flags flips from 0 to 1 — the reserved bits are not preserved for
arbitrary inputs of length at least 42. -/
theorem decode_reserved_bits_not_preserved :
    bWithCarry4.length = 42 ∧
    ∃ g, default_file.gdb_deserialize bWithCarry4 = .ok g ∧
      g.flags &&& 60 ≠ default_file.flags &&& 60 :=
  ⟨by decide, fileFlags4, by decide, by decide⟩

/-- C7 (amended): on an input of length at least 42 whose four flag
bytes are each 0 or 1, decoding preserves the reserved flag bits 2-5 of
the prior flag byte exactly and takes the defined bits 0, 1, 6, 7 from
input bytes 6, 7, 8, 9 respectively. -/
theorem decode_flag_bit_semantics (f : MosRegs) (b : List Nat) (hrc : f.rc.length = 32)
    (hfl : f.flags < 256) (hb : 42 ≤ b.length)
    (h6 : b.getD 6 0 < 2) (h7 : b.getD 7 0 < 2) (h8 : b.getD 8 0 < 2) (h9 : b.getD 9 0 < 2) :
    ∃ g, f.gdb_deserialize b = .ok g ∧
      g.flags &&& 60 = f.flags &&& 60 ∧
      g.flags &&& 1 = b.getD 6 0 ∧ g.flags >>> 1 &&& 1 = b.getD 7 0 ∧
      g.flags >>> 6 &&& 1 = b.getD 8 0 ∧ g.flags >>> 7 &&& 1 = b.getD 9 0 := by
  obtain ⟨h60, hc, hz, hv, hn, -⟩ :=
    flagCombine_bits f.flags hfl _ h6 _ h7 _ h8 _ h9
  exact ⟨_, gdb_deserialize_of_le_length f b hrc hb, h60, hc, hz, hv, hn⟩

theorem decode_flag_bit_semantics_witness :
    fullFlagsFile.rc.length = 32 ∧ fullFlagsFile.flags < 256 ∧
    ∃ g, fullFlagsFile.gdb_deserialize (List.replicate 42 0) = .ok g ∧
      g.flags &&& 60 = fullFlagsFile.flags &&& 60 ∧
      g.flags &&& 1 = (List.replicate 42 0).getD 6 0 ∧
      g.flags >>> 1 &&& 1 = (List.replicate 42 0).getD 7 0 ∧
      g.flags >>> 6 &&& 1 = (List.replicate 42 0).getD 8 0 ∧
      g.flags >>> 7 &&& 1 = (List.replicate 42 0).getD 9 0 :=
  ⟨by decide, by decide,
    decode_flag_bit_semantics fullFlagsFile (List.replicate 42 0) (by decide) (by decide)
      (by decide) (by decide) (by decide) (by decide) (by decide)⟩

/-- C1 (code bug): a short input never produces the malformed-input
`Err` — `gdb_deserialize` indexes the byte slice unconditionally, so any
input shorter than 42 bytes panics (out-of-bounds index) instead; and
the field writes made before the panic are kept, so a 6-byte input
leaves the target file partially overwritten (pc, a, x, y, s and the
masked flag byte) rather than unmodified. -/
theorem short_input_panics :
    default_file.gdb_deserialize [] = .panic default_file ∧
    default_file.gdb_deserialize (List.replicate 41 0) = .panic default_file ∧
    exampleFile.gdb_deserialize [9, 9, 9, 9, 9, 9] = .panic examplePanicFile ∧
    examplePanicFile ≠ exampleFile :=
  ⟨by decide, by decide, by decide, by decide⟩

/-- C2 (code bug): `from_raw_id` resolves index 7 to the negative flag N
and index 8 to the overflow flag V, while the spec table — and the
register numbering of the target-description XML served by the same file
(regnum 7 named "V", regnum 8 named "N") — put overflow at 7 and
negative at 8.  Every other index, including the widths, agrees with the
XML table, and 57 and 1000 resolve to absent. -/
theorem from_raw_id_flag_swap :
    MosRegId.from_raw_id 7 = some (MosRegId.N, 1) ∧
    MosRegId.from_raw_id 8 = some (MosRegId.V, 1) ∧
    xmlRegnumName 7 = some "V" ∧ xmlRegnumName 8 = some "N" ∧
    MosRegId.N.name = "N" ∧ MosRegId.V.name = "V" ∧
    (∀ id < 57, id ≠ 7 → id ≠ 8 →
      (MosRegId.from_raw_id id).map (fun p => (p.1.name, p.2)) =
        (xmlRegnumName id).bind fun nm => (xmlRegnumWidth id).map fun w => (nm, w)) ∧
    MosRegId.from_raw_id 57 = none ∧ MosRegId.from_raw_id 1000 = none :=
  ⟨rfl, rfl, rfl, rfl, rfl, rfl, by decide, by decide, by decide⟩
